import Mathlib

/-!
Shallow embedding of the stream/HTTP file-transfer code of the
`study-go` tutorial repository, and theorems checking the spec claims
against it.

Embedded sources:
- `file-streaming/step09-http-streaming/main.go`
  (`downloadHandler`, `rangeDownloadHandler`, `uploadHandler`,
  `ProgressReader.Read`, and the embedded step08 `safeCopyFile`),
- `file-streaming/step11-advanced-patterns/main.go`
  (`ProgressReader.Read`, `ThrottledReader.Read`),
- `file-streaming/step05-advanced-streaming/main.go`
  (`ioPipePattern` over `io.Pipe`, `teeReaderPattern` over `io.TeeReader`),
- `unnamed/part_000` (`chunkedFilePattern`).

Bytes are modelled as `Nat`, byte buffers as `List Nat`, a reader as the
finite trace of its successive `Read` returns `(chunk, error?)`, and the
filesystem as an association list from path to content.
-/

/-- A Go `error` value as seen by the stream code: `io.EOF` or any other
fault, the latter carrying a numeric code distinguishing fault values. -/
inductive GoErr where
  | eof
  | fault (code : Nat)
deriving DecidableEq, Repr

/-- One return of a Go `Read` call: the bytes written into the buffer and
the returned error (`none` is a nil error). -/
abbrev ReadEv := List Nat × Option GoErr

/-- A reader modelled as the finite trace of its successive read returns. -/
abbrev ReadTrace := List ReadEv

/- ### String and path helpers (Go `path/filepath` fragment) -/

/-- Split a character list on the slash character. -/
def splitSlashChars : List Char → List (List Char)
  | [] => [[]]
  | c :: rest =>
    let r := splitSlashChars rest
    if c = '/' then [] :: r
    else
      match r with
      | [] => [[c]]
      | g :: gs => (c :: g) :: gs

/-- Split a path string into its slash-separated segments. -/
def splitSlash (s : String) : List String :=
  (splitSlashChars s.toList).map (fun cs => String.mk cs)

/-- Go `filepath.Base`: the last non-empty path segment; `.` for the empty
path and `/` for a path made only of slashes. -/
def filepathBase (s : String) : String :=
  if s = "" then "."
  else
    let parts := (splitSlash s).filter (fun p => p ≠ "")
    match parts.getLast? with
    | some p => p
    | none => "/"

/-- Lexical resolution of a relative path by the operating system: empty
and `.` segments vanish, `..` pops the previous segment. -/
def resolveSegs (segs : List String) : List String :=
  segs.foldl
    (fun acc seg =>
      if seg = "" ∨ seg = "." then acc
      else if seg = ".." then acc.dropLast
      else acc ++ [seg]) []

/-- Whether the resolved form of `path` still lies below the `uploads`
root directory. -/
def withinUploadRoot (path : String) : Bool :=
  match resolveSegs (splitSlash path) with
  | r :: _ => r = "uploads"
  | [] => false

/- ### Filesystem model -/

/-- The filesystem visible to the handlers: an association list from path
to file content. -/
abbrev Fs := List (String × List Nat)

/-- `os.Create` / a completed write: insert or replace the file at `k`. -/
def fsInsert (fs : Fs) (k : String) (v : List Nat) : Fs :=
  match fs with
  | [] => [(k, v)]
  | (k0, v0) :: rest =>
    if k0 = k then (k, v) :: rest else (k0, v0) :: fsInsert rest k v

/-- Look up the content of the file at `k`. -/
def fsLookup (fs : Fs) (k : String) : Option (List Nat) :=
  match fs with
  | [] => none
  | (k0, v0) :: rest => if k0 = k then some v0 else fsLookup rest k

/- ### Upload handler (`step09-http-streaming/main.go`, `uploadHandler`) -/

/-- The parts of an upload request the handler inspects: the HTTP method,
whether `ParseMultipartForm` succeeds, and the `file` form part as the
pair of its client-supplied filename and its body bytes. -/
structure UploadReq where
  method : String
  parseOk : Bool
  filePart : Option (String × List Nat)

/-- Outcome of the `io.Copy` into the destination file: full success, or a
fault after `m` bytes were already written to the destination. -/
inductive CopyOutcome where
  | ok
  | failAfter (m : Nat)

/-- The destination path built by the handler: the string
`"uploads/" + header.Filename`, the caller filename appended verbatim to
the fixed upload root with no further sanitisation. -/
def uploadDestPath (fname : String) : String := "uploads/" ++ fname

/-- `uploadHandler`: method check, multipart parse, form file fetch,
`os.Create("uploads/" + header.Filename)` (truncating), `io.Copy`, then a
success report.  Returns the HTTP status and the final filesystem.  The
handler has no size ceiling, performs no path-escape check, and on a copy
fault leaves the partially written destination in place. -/
def uploadHandler (fs : Fs) (req : UploadReq) (createOk : Bool)
    (co : CopyOutcome) : Nat × Fs :=
  if req.method ≠ "POST" then (405, fs)
  else if ¬ req.parseOk then (400, fs)
  else
    match req.filePart with
    | none => (400, fs)
    | some (fname, body) =>
      if ¬ createOk then (500, fs)
      else
        let fs1 := fsInsert fs (uploadDestPath fname) []
        match co with
        | CopyOutcome.ok => (200, fsInsert fs1 (uploadDestPath fname) body)
        | CopyOutcome.failAfter m =>
          (500, fsInsert fs1 (uploadDestPath fname) (body.take m))

/- ### Download handlers (`step09-http-streaming/main.go`) -/

/-- `downloadHandler` line 39: the Content-Disposition header value is
built from the raw `file` query parameter. -/
def downloadDisposition (filename : String) : String :=
  "attachment; filename=" ++ filename

/-- Both download handlers open `"./uploads/" + filepath.Base(file)`:
the content identity actually served for a `file` query parameter. -/
def downloadOpenPath (filename : String) : String :=
  "./uploads/" ++ filepathBase filename

/-- `rangeDownloadHandler` line 78: the Content-Disposition header value
is built from `filepath.Base(file)`. -/
def rangeDisposition (filename : String) : String :=
  "attachment; filename=" ++ filepathBase filename

/- ### ProgressReader (`step11-advanced-patterns/main.go` lines 29-38,
identical in `step09-http-streaming/main.go` lines 168-177) -/

/-- One `ProgressReader.Read` call: forward the inner read, add its byte
count to `current`, and (when a callback is installed) invoke the callback
with the new cumulative count and the total.  Returns the forwarded read
result, the new cumulative count, and the list of callback invocations
made during the call. -/
def progressRead (cur : Nat) (inner : Nat × Option GoErr) (hasCb : Bool)
    (total : Nat) : (Nat × Option GoErr) × Nat × List (Nat × Nat) :=
  let n := inner.1
  let cur2 := cur + n
  (inner, cur2, if hasCb then [(cur2, total)] else [])

/-- Drive `progressRead` over a whole trace of inner read returns (with a
callback installed, as at both call sites), collecting every callback
invocation in order. -/
def progressRun (total : Nat) (cur : Nat) :
    List (Nat × Option GoErr) → List (Nat × Nat)
  | [] => []
  | inner :: rest =>
    let out := progressRead cur inner true total
    out.2.2 ++ progressRun total out.2.1 rest

/- ### ThrottledReader (`step11-advanced-patterns/main.go` lines 55-74) -/

/-- `allowedBytes := int64(float64(tr.bytesPerSec) * elapsed.Seconds())`,
with the elapsed time in nanoseconds and the float arithmetic idealised to
the exact rational floor (exact at the small magnitudes used below). -/
def throttleAllowed (bytesPerSec elapsedNs : Nat) : Nat :=
  bytesPerSec * elapsedNs / 1000000000

/-- The number of bytes a single `ThrottledReader.Read` may hand to the
inner reader: the buffer is shrunk to `allowedBytes` when that is smaller
(`if allowedBytes < int64(len(p)) { p = p[:allowedBytes] }`); a result of
0 is the 10 ms sleep-and-stall branch. -/
def throttleGrant (bytesPerSec elapsedNs lenp : Nat) : Nat :=
  let allowed := throttleAllowed bytesPerSec elapsedNs
  if allowed < lenp then allowed else lenp

/- ### Chunked copy loop (`unnamed/part_000`, `chunkedFilePattern`) -/

/-- The bytes the chunked loop delivers to its chunk files, driven by a
read trace: a non-EOF fault breaks before processing the chunk, a 0-byte
return breaks, otherwise the chunk is processed and the loop continues
(exhaustion of the trace stands for the file returning `(0, EOF)`). -/
def chunkedRun : ReadTrace → List Nat
  | [] => []
  | (_, some (GoErr.fault _)) :: _ => []
  | (c, none) :: rest => if c = [] then [] else c ++ chunkedRun rest
  | (c, some GoErr.eof) :: rest => if c = [] then [] else c ++ chunkedRun rest

/-- The bytes a source makes available before its terminal signal: chunks
returned with a nil error accumulate, the chunk delivered together with
`EOF` is included, and a fault ends the data (its chunk is dropped, as the
loop drops it). -/
def sourceBytes : ReadTrace → List Nat
  | [] => []
  | (c, none) :: rest => c ++ sourceBytes rest
  | (c, some GoErr.eof) :: _ => c
  | (_, some (GoErr.fault _)) :: _ => []

/-- A trace is well formed when a return carrying an error is the last
return (after `EOF` or a fault the file yields nothing further). -/
def wfTrace : ReadTrace → Bool
  | [] => true
  | (_, none) :: rest => wfTrace rest
  | (_, some _) :: rest => rest.isEmpty

/-- A trace is stall-free when no nil-error return carries 0 bytes. -/
def noStall : ReadTrace → Bool
  | [] => true
  | (c, none) :: rest => decide (c ≠ []) && noStall rest
  | (_, some _) :: rest => noStall rest

/- ### Synchronous pipe (`step05-advanced-streaming/main.go`,
`ioPipePattern` over `io.Pipe`) -/

/-- Pipe state once the producer is done: the chunks written (each write
rendezvoused with one consumer read, so they sit in producer order) and
the close status — `none` still open, `some none` closed normally,
`some (some e)` closed with fault `e`. -/
structure PipeSt where
  pending : List (List Nat)
  closed : Option (Option Nat)
deriving DecidableEq, Repr

/-- `CloseWithError e` (`Close` is `CloseWithError nil`, i.e. `e = none`):
records the close status, never overwriting an earlier one — the first
error sticks, so the deferred `pw.Close()` after a `CloseWithError` is a
no-op. -/
def closeOp (s : PipeSt) (e : Option Nat) : PipeSt :=
  match s.closed with
  | some _ => s
  | none => { s with closed := some e }

/-- The pipe state after the producer goroutine of `ioPipePattern` ends:
its writes, then `CloseWithError err` when a fault occurred, then the
deferred `pw.Close()`. -/
def pipeEndState (writes : List (List Nat)) (fault : Option Nat) : PipeSt :=
  let s0 : PipeSt := ⟨writes, none⟩
  let s1 :=
    match fault with
    | some e => closeOp s0 (some e)
    | none => s0
  closeOp s1 none

/-- What one consumer read observes. -/
inductive ReadRes where
  | chunk (c : List Nat)
  | eofR
  | errR (e : Nat)
  | blocked
deriving DecidableEq, Repr

/-- One consumer read: the next rendezvoused chunk if one is pending, else
the close status (`EOF` for a normal close, the fault for an error close),
else the read blocks. -/
def readStep (s : PipeSt) : ReadRes × PipeSt :=
  match s.pending with
  | c :: rest => (ReadRes.chunk c, ⟨rest, s.closed⟩)
  | [] =>
    match s.closed with
    | none => (ReadRes.blocked, s)
    | some none => (ReadRes.eofR, s)
    | some (some e) => (ReadRes.errR e, s)

/-- The consumer loop (`io.Copy(gzipWriter, pr)`): drain every pending
chunk, then report the terminal read result. -/
def consumeLoop (cl : Option (Option Nat)) : List (List Nat) → List Nat × ReadRes
  | [] => ([], (readStep ⟨[], cl⟩).1)
  | c :: rest =>
    let r := consumeLoop cl rest
    (c ++ r.1, r.2)

/-- Everything the consumer of a pipe observes after the producer wrote
`writes` and closed with `fault`. -/
def pipeConsume (writes : List (List Nat)) (fault : Option Nat) :
    List Nat × ReadRes :=
  let s := pipeEndState writes fault
  consumeLoop s.closed s.pending

/- ### Tee stage (`step05-advanced-streaming/main.go`, `teeReaderPattern`
over `io.TeeReader` and `io.Copy`) -/

/-- Drive `io.Copy(file, io.TeeReader(reader, hash))` by a read trace of
the underlying reader: whenever a read returns bytes, `TeeReader` writes
them to the mirror before `io.Copy` writes them to the primary sink; a
nil-error return continues the loop, any error return ends it after those
writes.  Returns (primary sink bytes, mirror sink bytes). -/
def teeCopy : ReadTrace → List Nat × List Nat
  | [] => ([], [])
  | (c, none) :: rest =>
    let pm := teeCopy rest
    (c ++ pm.1, c ++ pm.2)
  | (c, some _) :: _ => (c, c)

/-- The input byte sequence a read trace yields: every chunk up to and
including the one delivered with the terminal error. -/
def teeInput : ReadTrace → List Nat
  | [] => []
  | (c, none) :: rest => c ++ teeInput rest
  | (c, some _) :: _ => c

/- ### safeCopyFile (step08 code embedded in
`step09-http-streaming/main.go` lines 634-668) -/

/-- The environment a `safeCopyFile(src, dst)` call runs in: the source
content (`none` when `os.Open` fails), whether `os.Create(dst)` succeeds,
the `io.Copy` outcome (`some m` is a fault after `m` bytes reached the
destination), and whether `destFile.Sync()` succeeds. -/
structure CopyScenario where
  srcContent : Option (List Nat)
  createOk : Bool
  copyFault : Option Nat
  syncOk : Bool

/-- The faults `safeCopyFile` can surface. -/
inductive CopyErr where
  | openFail
  | createFail
  | copyFail
  | syncFail
deriving DecidableEq, Repr

/-- The deferred cleanup of `safeCopyFile`: close the destination and,
when the named return `err` is non-nil, `os.Remove(dst)`.  It runs before
the fault is surfaced to the caller. -/
def copyDefer (err : Option CopyErr) (dst : Option (List Nat)) :
    Option (List Nat) :=
  match err with
  | some _ => none
  | none => dst

/-- `safeCopyFile`: open the source, create the destination, copy, sync,
with the deferred remove-on-error cleanup applied at every exit after the
destination was created.  Returns (surfaced error, final destination file
state, whether `Sync` completed before the return). -/
def safeCopyFile (sc : CopyScenario) :
    Option CopyErr × Option (List Nat) × Bool :=
  match sc.srcContent with
  | none => (some CopyErr.openFail, none, false)
  | some content =>
    if sc.createOk then
      match sc.copyFault with
      | some m =>
        (some CopyErr.copyFail,
          copyDefer (some CopyErr.copyFail) (some (content.take m)), false)
      | none =>
        if sc.syncOk then (none, copyDefer none (some content), true)
        else (some CopyErr.syncFail,
          copyDefer (some CopyErr.syncFail) (some content), false)
    else (some CopyErr.createFail, none, false)

/-!
### Theorems

Helper lemmas first, then one theorem (with counterexample and witness
where applicable) per spec claim.
-/

/-- Inserting a file and looking it up at the same path yields its new
content. -/
theorem fsLookup_fsInsert (fs : Fs) (k : String) (v : List Nat) :
    fsLookup (fsInsert fs k v) k = some v := by
  induction fs with
  | nil => simp [fsInsert, fsLookup]
  | cons hd tl ih =>
    obtain ⟨k0, v0⟩ := hd
    by_cases h : k0 = k
    · simp [fsInsert, fsLookup, h]
    · simp [fsInsert, fsLookup, h, ih]

/-- Claim C1, counterexample: for the upload filename `../evil.txt` the
destination path `uploads/../evil.txt` resolves outside the upload root,
yet the handler reports success and creates the file there instead of
rejecting the request before any file is created. -/
theorem C1_upload_root_escape_cex :
    withinUploadRoot (uploadDestPath "../evil.txt") = false ∧
    uploadHandler [] ⟨"POST", true, some ("../evil.txt", [7])⟩ true
        CopyOutcome.ok
      = (200, [("uploads/../evil.txt", [7])]) ∧
    fsLookup (uploadHandler [] ⟨"POST", true, some ("../evil.txt", [7])⟩
        true CopyOutcome.ok).2 (uploadDestPath "../evil.txt") = some [7] :=
  ⟨by decide, by decide, by decide⟩

/-- Claim C1, amended: the destination is always the fixed upload root
with the caller-supplied filename appended (so never the bare caller
filename), but no escape check exists: file creation proceeds for every
filename, including ones whose resolved path leaves the root. -/
theorem C1_fixed_root_no_escape_check (fs : Fs) (fname : String)
    (body : List Nat) :
    uploadDestPath fname = "uploads/" ++ fname ∧
    uploadHandler fs ⟨"POST", true, some (fname, body)⟩ true CopyOutcome.ok
      = (200, fsInsert (fsInsert fs (uploadDestPath fname) [])
          (uploadDestPath fname) body) :=
  ⟨rfl, rfl⟩

/-- Claim C2: in `downloadHandler` the Content-Disposition filename is the
raw `file` query parameter, not the base name — the requests
`file=../../etc/passwd` and `file=passwd` resolve to the same content
(same opened path) yet expose different header filenames, and the header
for the former contains directory components; `rangeDownloadHandler` uses
the sanitised base name. -/
theorem C2_disposition_raw_input_bug :
    downloadOpenPath "../../etc/passwd" = downloadOpenPath "passwd" ∧
    downloadDisposition "../../etc/passwd" ≠ downloadDisposition "passwd" ∧
    downloadDisposition "../../etc/passwd"
      = "attachment; filename=../../etc/passwd" ∧
    rangeDisposition "../../etc/passwd" = rangeDisposition "passwd" :=
  ⟨by decide, by decide, by decide, by decide⟩

/-- Claim C3, counterexample: an upload body one byte over the 10 MiB
figure is stored in full with a 200 success report — no 413 fault, and
every excess byte reaches the destination. -/
theorem C3_no_size_ceiling_cex :
    (List.replicate 10485761 (0 : Nat)).length = 10485761 ∧
    10485760 < 10485761 ∧
    uploadHandler []
        ⟨"POST", true, some ("big.bin", List.replicate 10485761 0)⟩ true
        CopyOutcome.ok
      = (200, [("uploads/big.bin", List.replicate 10485761 0)]) :=
  ⟨List.length_replicate 10485761 0, by decide, rfl⟩

/-- Claim C3, amended: the upload receiver bounds nothing — for every
body, of any length, the full body is stored and success is reported, and
no execution of the handler ever returns status 413. -/
theorem C3_body_unbounded (fs : Fs) (fname : String) (body : List Nat) :
    uploadHandler fs ⟨"POST", true, some (fname, body)⟩ true CopyOutcome.ok
      = (200, fsInsert (fsInsert fs (uploadDestPath fname) [])
          (uploadDestPath fname) body) ∧
    ∀ (req : UploadReq) (createOk : Bool) (co : CopyOutcome),
      (uploadHandler fs req createOk co).1 ≠ 413 := by
  refine ⟨rfl, ?_⟩
  intro req createOk co
  unfold uploadHandler
  split
  · simp
  · split
    · simp
    · split
      · simp
      · split
        · simp
        · split <;> simp

/-- Claim C4, counterexample: an upload whose copy faults after 2 of 3
bytes surfaces the fault (500) but leaves the partially written
destination file on disk with the 2 bytes — no rollback. -/
theorem C4_upload_no_rollback_cex :
    uploadHandler [] ⟨"POST", true, some ("a.txt", [1, 2, 3])⟩ true
        (CopyOutcome.failAfter 2)
      = (500, [("uploads/a.txt", [1, 2])]) ∧
    fsLookup (uploadHandler [] ⟨"POST", true, some ("a.txt", [1, 2, 3])⟩
        true (CopyOutcome.failAfter 2)).2 "uploads/a.txt" = some [1, 2] :=
  ⟨by decide, by decide⟩

/-- Claim C4, amended: `safeCopyFile` honours the claim — whenever it
surfaces a fault the destination file has been removed (the deferred
cleanup runs before the fault reaches the caller), and on success the
destination holds the full source content and was synced before the
return — but the upload handler does not roll back. -/
theorem C4_safeCopyFile_rollback (sc : CopyScenario) :
    ((safeCopyFile sc).1.isSome = true → (safeCopyFile sc).2.1 = none) ∧
    ((safeCopyFile sc).1 = none →
      (safeCopyFile sc).2.2 = true ∧ (safeCopyFile sc).2.1 = sc.srcContent) := by
  obtain ⟨src, cok, cf, sok⟩ := sc
  cases src <;> cases cok <;> cases cf <;> cases sok <;>
    simp [safeCopyFile, copyDefer]

/-- Claim C4, witness: the amended theorem applied to a copy fault after
1 byte (destination removed) and to a clean run (synced). -/
theorem C4_safeCopyFile_rollback_witness :
    (safeCopyFile ⟨some [1, 2, 3], true, some 1, true⟩).2.1 = none ∧
    (safeCopyFile ⟨some [9], true, none, true⟩).2.2 = true :=
  ⟨(C4_safeCopyFile_rollback ⟨some [1, 2, 3], true, some 1, true⟩).1 rfl,
   ((C4_safeCopyFile_rollback ⟨some [9], true, none, true⟩).2 rfl).1⟩

/-- Claim C5, counterexample: when the inner read returns a fault (here
`(0, fault 1)` with cumulative count 0 and total 10), the progress
callback is still invoked — the invocation list for that call is
`[(0, 10)]`, not empty. -/
theorem C5_callback_on_fault_cex :
    progressRun 10 0 [(0, some (GoErr.fault 1))] = [(0, 10)] ∧
    progressRun 10 0 [(0, some (GoErr.fault 1))] ≠ [] :=
  ⟨by decide, by decide⟩

/-- Claim C5, amended: `ProgressReader.Read` forwards the inner result
unchanged and invokes the callback exactly once per call — successful or
faulting — with the cumulative byte count (including that call) and the
total; over any trace the number of invocations equals the number of
read calls. -/
theorem C5_callback_every_call (total cur : Nat)
    (inner : Nat × Option GoErr) :
    (progressRead cur inner true total).1 = inner ∧
    (progressRead cur inner true total).2.2 = [(cur + inner.1, total)] ∧
    ∀ tr : List (Nat × Option GoErr),
      (progressRun total cur tr).length = tr.length := by
  refine ⟨rfl, rfl, ?_⟩
  intro tr
  induction tr generalizing cur with
  | nil => rfl
  | cons hd tl ih => simp [progressRun, progressRead, ih]

/-- Claim C6, counterexample: at 100 bytes per second, after an idle
interval of 2 seconds a single read with a 500-byte buffer is granted
200 bytes — more than the one-second bucket of 100 the claim allows. -/
theorem C6_burst_exceeds_capacity_cex :
    throttleGrant 100 2000000000 500 = 200 ∧ 100 < 200 :=
  ⟨by decide, by decide⟩

/-- Claim C6, amended: the throttled reader keeps no token bucket — a
read is granted `min(allowance, buffer length)` bytes where the allowance
is the full `bytesPerSec × elapsed` with no capacity cap, so the burst
a single read may be granted grows without bound with the idle
interval. -/
theorem C6_allowance_uncapped (r : Nat) (hr : 0 < r) :
    (∀ e l, throttleGrant r e l = min (throttleAllowed r e) l) ∧
    (∀ B, ∃ e l, B < throttleGrant r e l) := by
  constructor
  · intro e l
    simp only [throttleGrant, Nat.min_def]
    split <;> split <;> omega
  · intro B
    refine ⟨(B + 1) * 1000000000, r * (B + 1), ?_⟩
    have ha : throttleAllowed r ((B + 1) * 1000000000) = r * (B + 1) := by
      unfold throttleAllowed
      rw [← Nat.mul_assoc]
      exact Nat.mul_div_cancel _ (by norm_num)
    have hb : B + 1 ≤ r * (B + 1) := Nat.le_mul_of_pos_left (B + 1) hr
    unfold throttleGrant
    rw [ha]
    simp only [lt_irrefl, if_false]
    omega

/-- Claim C6, witness: the amended theorem at rate 100, once for the
`min` shape and once producing a burst above 5 bytes. -/
theorem C6_allowance_uncapped_witness :
    throttleGrant 100 0 7 = min (throttleAllowed 100 0) 7 ∧
    ∃ e l, 5 < throttleGrant 100 e l :=
  ⟨(C6_allowance_uncapped 100 (by decide)).1 0 7,
   (C6_allowance_uncapped 100 (by decide)).2 5⟩

/-- Claim C7, counterexample: on the source trace
`(0 bytes, nil), ([5], nil), (0 bytes, EOF)` — a stall followed by more
data — the chunked loop stops at the stall and delivers nothing, though
the source still holds the byte 5. -/
theorem C7_stall_treated_as_eof_cex :
    chunkedRun [([], none), ([5], none), ([], some GoErr.eof)] = [] ∧
    sourceBytes [([], none), ([5], none), ([], some GoErr.eof)] = [5] :=
  ⟨by decide, by decide⟩

/-- Claim C7, amended: the chunked copy loop treats every 0-byte
non-fault return — stall or terminal — as end-of-data; for well-formed
sources that never stall it delivers exactly all the bytes of the source,
terminating on the terminal signal or a fault. -/
theorem C7_no_stall_delivers_all (tr : ReadTrace) (hwf : wfTrace tr = true)
    (hns : noStall tr = true) : chunkedRun tr = sourceBytes tr := by
  induction tr with
  | nil => rfl
  | cons hd tl ih =>
    obtain ⟨c, e⟩ := hd
    match e with
    | none =>
      simp only [noStall, Bool.and_eq_true, decide_eq_true_eq] at hns
      simp only [wfTrace] at hwf
      simp [chunkedRun, sourceBytes, hns.1, ih hwf hns.2]
    | some GoErr.eof =>
      simp only [wfTrace, List.isEmpty_iff] at hwf
      subst hwf
      by_cases hc : c = [] <;> simp [chunkedRun, sourceBytes, hc]
    | some (GoErr.fault k) =>
      simp [chunkedRun, sourceBytes]

/-- Claim C7, witness: the amended theorem on the concrete stall-free
trace `([1,2], nil), (0 bytes, EOF)`. -/
theorem C7_no_stall_delivers_all_witness :
    chunkedRun [([1, 2], none), ([], some GoErr.eof)]
      = sourceBytes [([1, 2], none), ([], some GoErr.eof)] :=
  C7_no_stall_delivers_all _ (by decide) (by decide)

/-- Draining the pending chunks yields their concatenation followed by
the terminal read result determined by the close status. -/
theorem consumeLoop_join (cl : Option (Option Nat)) (ws : List (List Nat)) :
    consumeLoop cl ws = (ws.flatten, (readStep ⟨[], cl⟩).1) := by
  induction ws with
  | nil => rfl
  | cons c rest ih => simp [consumeLoop, ih]

/-- Claim C8: a pipe whose producer writes `writes` and closes normally
lets the consumer read exactly those bytes followed by end-of-data; when
the producer closes with fault `e` instead (the deferred ordinary close
never overwriting it), the consumer reads exactly the bytes written
before the fault followed by that fault — never an ordinary
end-of-data. -/
theorem C8_pipe_delivery (writes : List (List Nat)) :
    pipeConsume writes none = (writes.flatten, ReadRes.eofR) ∧
    ∀ e : Nat,
      pipeConsume writes (some e) = (writes.flatten, ReadRes.errR e) ∧
      ReadRes.errR e ≠ ReadRes.eofR := by
  constructor
  · simp [pipeConsume, pipeEndState, closeOp, consumeLoop_join, readStep]
  · intro e
    constructor
    · simp [pipeConsume, pipeEndState, closeOp, consumeLoop_join, readStep]
    · simp

/-- Claim C9: for every read trace driven through the tee stage, the
byte sequence delivered to the primary sink equals the byte sequence fed
to the mirror sink, both equal the input sequence, and any digest of the
mirror bytes equals the digest of the input sequence hashed directly. -/
theorem C9_tee_mirror_identical (tr : ReadTrace)
    (digest : List Nat → Nat) :
    (teeCopy tr).1 = (teeCopy tr).2 ∧
    (teeCopy tr).1 = teeInput tr ∧
    digest (teeCopy tr).2 = digest (teeInput tr) := by
  have h : (teeCopy tr).1 = (teeCopy tr).2 ∧ (teeCopy tr).1 = teeInput tr := by
    induction tr with
    | nil => exact ⟨rfl, rfl⟩
    | cons hd tl ih =>
      obtain ⟨c, e⟩ := hd
      cases e with
      | none => simp [teeCopy, teeInput, ih.2, ih.1.symm.trans ih.2]
      | some g => simp [teeCopy, teeInput]
  exact ⟨h.1, h.2, by rw [← h.1, h.2]⟩

/-- Claim C10: an upload whose filename collides with an already stored
file truncates and replaces that file with the new body and reports
success — the prior content is gone and no error is raised. -/
theorem C10_upload_overwrites_existing (fs : Fs) (fname : String)
    (body old : List Nat)
    (_hold : fsLookup fs (uploadDestPath fname) = some old) :
    (uploadHandler fs ⟨"POST", true, some (fname, body)⟩ true
      CopyOutcome.ok).1 = 200 ∧
    fsLookup (uploadHandler fs ⟨"POST", true, some (fname, body)⟩ true
      CopyOutcome.ok).2 (uploadDestPath fname) = some body := by
  refine ⟨rfl, ?_⟩
  show fsLookup (fsInsert (fsInsert fs (uploadDestPath fname) [])
    (uploadDestPath fname) body) (uploadDestPath fname) = some body
  exact fsLookup_fsInsert _ _ _

/-- Claim C10, witness: overwriting the stored `uploads/a.txt` holding
`[1]` with the new body `[2, 3]`. -/
theorem C10_upload_overwrites_existing_witness :
    fsLookup [("uploads/a.txt", [1])] (uploadDestPath "a.txt") = some [1] ∧
    fsLookup (uploadHandler [("uploads/a.txt", [1])]
        ⟨"POST", true, some ("a.txt", [2, 3])⟩ true CopyOutcome.ok).2
      (uploadDestPath "a.txt") = some [2, 3] :=
  ⟨by decide,
   (C10_upload_overwrites_existing [("uploads/a.txt", [1])] "a.txt" [2, 3]
     [1] (by decide)).2⟩
